import Mathlib

/-!
Verification of the soundxyz/response-cache cache engine (src/redis.ts,
src/utils.ts) against its natural-language specification.

The TypeScript code is shallowly embedded as pure Lean functions:
* the Redis store is a pair of association lists (string keys and set keys;
  `DEL` works uniformly on both, as in Redis);
* the `pipeline` of `set` is the sequence of its writes, applied in order;
* promise interleaving inside `invalidate`'s `Promise.all` is sequentialised
  (all claims below evaluate it on single-entity invalidations, where the
  two agree exactly);
* the in-process coalescing table `ConcurrentLoadingCache` and the lease
  table `responseIdLocks` are association lists, and promise identity is an
  allocation counter;
* fallible steps (store round trips, lock acquisition, `JSON.parse`) are
  inputs to the embedded control flow, with `Except` for thrown exceptions.
-/

set_option autoImplicit false

namespace ResponseCache

/-- JavaScript entity id: `id?: number | string`.  `num` carries the integer
case (the tests and spec only use integers). -/
inductive EntityId where
  | num (n : Int)
  | str (s : String)
deriving DecidableEq, Repr

/-- Truthiness of an `EntityId` in JavaScript: `0` and `""` are falsy.
`set` guards the instance tag with `if (id)`. -/
def EntityId.truthy : EntityId → Bool
  | .num n => n != 0
  | .str s => s != ""

/-- Rendering of the id inside a template literal. -/
def EntityId.render : EntityId → String
  | .num n => toString n
  | .str s => s

/-- An `EntityRef` `{ typename, id? }` as collected by the plugin. -/
structure EntityRef where
  typename : String
  id : Option EntityId
deriving DecidableEq, Repr

/-- Default entity-tag builder: `(typename, id) => typename + ":" + id`. -/
def defaultBuildRedisEntityId (typename : String) (id : EntityId) : String :=
  typename ++ ":" ++ id.render

/-- Default operations-key builder: `responseId => "operations:" + responseId`. -/
def defaultBuildRedisOperationResultCacheKey (responseId : String) : String :=
  "operations:" ++ responseId

/-- The Redis key space visible to this library: plain string entries
(cached responses) and set entries (tag reverse indexes and operation key
sets).  TTL expiry is delegated to Redis and not modelled; no claim under
verification concerns it. -/
structure Store where
  strings : List (String × String)
  sets : List (String × List String)
deriving DecidableEq, Repr

def Store.empty : Store := ⟨[], []⟩

/-- Lookup of a plain string entry (`GET`). -/
def Store.getString (st : Store) (k : String) : Option String :=
  st.strings.lookup k

/-- Members of a set entry (`SMEMBERS`); an absent key reads as the empty
set, as in Redis. -/
def Store.smembers (st : Store) (k : String) : List String :=
  (st.sets.lookup k).getD []

/-- Whether the key exists at all (either as a string or as a set). -/
def Store.hasKey (st : Store) (k : String) : Bool :=
  (st.strings.map Prod.fst ++ st.sets.map Prod.fst).contains k

/-- `SET` of a plain string entry, overwriting any previous value. -/
def Store.setString (st : Store) (k v : String) : Store :=
  { st with strings := (k, v) :: st.strings.filter (fun p => p.1 != k) }

/-- `SADD` of one member, idempotent on members already present. -/
def Store.sadd (st : Store) (k m : String) : Store :=
  let cur := st.smembers k
  let cur := if cur.contains m then cur else cur ++ [m]
  { st with sets := (k, cur) :: st.sets.filter (fun p => p.1 != k) }

/-- `DEL` of a list of keys; removes string and set entries alike. -/
def Store.del (st : Store) (ks : List String) : Store :=
  { strings := st.strings.filter (fun p => !(ks.contains p.1)),
    sets := st.sets.filter (fun p => !(ks.contains p.1)) }

/-- Result of the `KEYS pattern:*` scan: every key, of either kind, whose
name extends `pre` (the code always passes `entity ++ ":"` plus `*`). -/
def Store.scanKeys (st : Store) (pre : String) : List String :=
  (st.strings.map Prod.fst ++ st.sets.map Prod.fst).filter
    (fun k => pre.data.isPrefixOf k.data)

/-- The slicing loop of the `chunk` helper of src/utils.ts, with an
explicit fuel argument so the recursion is structural and kernel-reducible;
the fuel is always at least the list length, so the fuel-exhausted branch
is unreachable. -/
def chunkGoFuel {α : Type} (size : Nat) : Nat → List α → List (List α)
  | _, [] => []
  | 0, _ :: _ => []
  | fuel + 1, x :: xs =>
      ((x :: xs).take size) :: chunkGoFuel size fuel (xs.drop (size - 1))

/-- The slicing loop `for (let i = 0; i < array.length; i += size)` with
`chunked.push(array.slice(i, i + size))`. -/
def chunkGo {α : Type} (size : Nat) (l : List α) : List (List α) :=
  chunkGoFuel size l.length l

/-- The `chunk` helper of src/utils.ts, written against a JavaScript
`number` size restricted to integers (every caller passes the integer
`concurrencyLimit`).  `size < 1` returns the whole array as one chunk;
otherwise slices of `size` elements are taken from the front. -/
def chunk {α : Type} (array : List α) (size : Int) : List (List α) :=
  if size < 1 then [array] else chunkGo size.toNat array

/-! Store effects of `set(responseId, result, collectedEntities, ttl)`
(src/redis.ts lines 361-391): one pipelined batch that writes the
serialized response under `responseId` and, per collected entity, adds
`responseId` to the type-level tag set, the type-level tag to the
operations set, and — only when `id` is truthy (`if (id)`) — the same two
additions for the instance-level tag `typename:id`. -/

def setEntityWrites (responseId : String) (st : Store) (e : EntityRef) : Store :=
  let responseKey := defaultBuildRedisOperationResultCacheKey responseId
  let st := st.sadd e.typename responseId
  let st := st.sadd responseKey e.typename
  match e.id with
  | some i =>
      if i.truthy then
        let entityId := defaultBuildRedisEntityId e.typename i
        (st.sadd entityId responseId).sadd responseKey entityId
      else st
  | none => st

def setStoreWrites (st : Store) (responseId serialized : String)
    (collectedEntities : List EntityRef) : Store :=
  collectedEntities.foldl (setEntityWrites responseId)
    (st.setString responseId serialized)

/-! Invalidation traversal (src/redis.ts lines 158-202 and 499-539). -/

/-- For one dependent response id the traversal pushes the response key and
its operations key, in that order. -/
def depKeys (responseIds : List String) : List String :=
  responseIds.foldr
    (fun r acc => r :: defaultBuildRedisOperationResultCacheKey r :: acc) []

/-- `buildEntityInvalidationsKeys(entity)`: the tag itself, the dependents
of the tag with their operations keys, and — only when the tag contains no
`:` separator — for every key found by the `entity:*` scan, that key's
dependents with their operations keys followed by the scanned key itself.
(The `Promise.all` over scanned keys is sequentialised in scan order.) -/
def buildEntityInvalidationsKeys (st : Store) (entity : String) : List String :=
  let keys := entity :: depKeys (st.smembers entity)
  if entity.data.contains ':' then keys
  else
    keys ++ (st.scanKeys (entity ++ ":")).foldr
      (fun entityKey acc => depKeys (st.smembers entityKey) ++ entityKey :: acc) []

/-- The canonical tag `invalidate` derives from an `EntityRef`:
`id != null ? buildRedisEntityId(typename, id) : typename`.  Note the
guard is a null check, unlike the truthiness check of `set`. -/
def invalidationEntityKey (e : EntityRef) : String :=
  match e.id with
  | some i => defaultBuildRedisEntityId e.typename i
  | none => e.typename

/-- `invalidate(entitiesToRemove)` with `concurrencyLimit`: per entity tag,
gather the invalidation keys, cut them into chunks of at most
`concurrencyLimit` keys, and `DEL` the chunks in order.  Returns the final
store and every `DEL` argument list issued, in order.  (`Promise.all` over
the entity tags is sequentialised; the claims evaluate single-entity
calls, where this is exact.) -/
def invalidateRun (st : Store) (entitiesToRemove : List EntityRef)
    (concurrencyLimit : Int) : Store × List (List String) :=
  match entitiesToRemove with
  | [] => (st, [])
  | e :: es =>
      let keys := buildEntityInvalidationsKeys st (invalidationEntityKey e)
      let rest := invalidateRun (st.del keys) es concurrencyLimit
      (rest.1, chunk keys concurrencyLimit ++ rest.2)

/-- The concatenation, in traversal order, of the key lists
`buildEntityInvalidationsKeys` gathers during one `invalidate` call; the
code deletes exactly these keys, chunked, with no deduplication pass. -/
def invalidationTraversalKeys (st : Store) (entitiesToRemove : List EntityRef) :
    List String :=
  match entitiesToRemove with
  | [] => []
  | e :: es =>
      let keys := buildEntityInvalidationsKeys st (invalidationEntityKey e)
      keys ++ invalidationTraversalKeys (st.del keys) es

/-! In-process request coalescing (src/redis.ts lines 204-222).
`ConcurrentLoadingCache` maps a key to its in-flight promise; promises are
identified by an allocation counter.  `producerRuns` records each
invocation of the producer callback `cb` as `(key, promiseId)`. -/

structure CoalesceState where
  ConcurrentLoadingCache : List (String × Nat)
  nextPromiseId : Nat
  producerRuns : List (String × Nat)
deriving DecidableEq, Repr

/-- One call of `ConcurrentCachedCall(key, cb)`: if a promise is registered
for the key, return it without running `cb`; otherwise run `cb`, register
its promise, and return it.  Yields the promise the caller awaits and the
new state. -/
def ConcurrentCachedCall (s : CoalesceState) (key : String) :
    Nat × CoalesceState :=
  match s.ConcurrentLoadingCache.lookup key with
  | some p => (p, s)
  | none =>
      (s.nextPromiseId,
        { ConcurrentLoadingCache := (key, s.nextPromiseId) :: s.ConcurrentLoadingCache,
          nextPromiseId := s.nextPromiseId + 1,
          producerRuns := s.producerRuns ++ [(key, s.nextPromiseId)] })

/-- Settlement of the in-flight call for `key`: the `.finally` handler sets
`ConcurrentLoadingCache[key] = null` whether the promise fulfilled or
rejected, so the outcome is not an argument. -/
def settleCall (s : CoalesceState) (key : String) : CoalesceState :=
  { s with
    ConcurrentLoadingCache :=
      s.ConcurrentLoadingCache.filter (fun p => p.1 != key) }

/-- `n` successive calls of `ConcurrentCachedCall` for the same key with no
settlement in between; returns the promises handed out, in order. -/
def callN (s : CoalesceState) (key : String) : Nat → List Nat × CoalesceState
  | 0 => ([], s)
  | n + 1 =>
      ((ConcurrentCachedCall s key).1 ::
          (callN (ConcurrentCachedCall s key).2 key n).1,
        (callN (ConcurrentCachedCall s key).2 key n).2)

/-! The read path and the fill lock (src/redis.ts lines 224-337 and
425-498). -/

/-- Outcome of the raced `store.get(responseId)` round trip. -/
inductive StoreGetOutcome where
  | timedOut
  | errored
  | value (v : Option String)
deriving DecidableEq, Repr

/-- Whether an `Except` is a thrown (rejected) state. -/
def isThrown {ε α : Type} : Except ε α → Bool
  | .error _ => true
  | .ok _ => false

/-- What one `getFromRedis` resolution carries: the deserialized value (or
null), the `ok` flag, and the remaining TTL (populated only by the
`debugTtl` pipeline, hence optional). -/
structure ReadOut (V : Type) where
  value : Option V
  ok : Bool
  ttl : Option Nat
deriving DecidableEq, Repr

/-- `getFromRedis` with `debugTtl = false` (the default): a timeout or a
store error is caught, reported, and resolves as `(null, { ok: false })`; a
null reply resolves as a genuine miss `(null, { ok: true })`; a non-null
reply is fed to `JSON.parse`, whose failure rejects the promise. -/
def getFromRedis {V : Type} (parse : String → Except String V)
    (o : StoreGetOutcome) : Except String (ReadOut V) :=
  match o with
  | .timedOut => .ok ⟨none, false, none⟩
  | .errored => .ok ⟨none, false, none⟩
  | .value none => .ok ⟨none, true, none⟩
  | .value (some s) => (parse s).map (fun v => ⟨some v, true, none⟩)

/-- Process-local lease table `responseIdLocks`; an entry set to `null` is
the same as an absent entry for every read the code performs. -/
def LockTable := List (String × Bool)

/-- Whether the table currently holds a lease for the key. -/
def LockTable.holds (t : LockTable) (k : String) : Bool :=
  match List.lookup k t with
  | some b => b
  | none => false

/-- Assignment `responseIdLocks[key] = v` (`v = false` models `null`). -/
def LockTable.assign (t : LockTable) (k : String) (v : Bool) : LockTable :=
  (k, v) :: t.filter (fun p => p.1 != k)

/-- Environment of one `get(responseId)` call: the resolution of the first
`getFromRedis`, whether a redlock client is configured, the outcome of
`redLock.acquire` (`none` when it rejects, `some n` when it fulfils after
`n` attempts), and the resolution of the second `getFromRedis` should the
control flow reach it. -/
structure GetEnv (V : Type) where
  firstRead : Except String (ReadOut V)
  hasRedLock : Bool
  lockOutcome : Option Nat
  secondRead : Except String (ReadOut V)

/-- Observable outcome of `get`: the settled result (value and ttl tuple,
or the propagated exception), the lease table after the call, whether the
just-acquired lease was released right away, and whether the second store
read was issued. -/
structure GetOut (V : Type) where
  result : Except String (Option V × Option Nat)
  locks : LockTable
  releasedLease : Bool
  secondReadIssued : Bool

/-- The `.then` mapping of the get-after-acquire read:
`getFromRedis(responseId).then(v => [v[0], { ttl: v[1].ttl }])`. -/
def getAfterLock {V : Type} (env : GetEnv V) :
    Except String (Option V × Option Nat) :=
  env.secondRead.map (fun o => (o.value, o.ttl))

/-- `get(responseId)` (src/redis.ts lines 425-498).  A not-`ok` first read
returns `[null]`; a hit returns the value and ttl; a genuine miss without
a lock client returns `[null]`.  With a lock client, the acquire handler
stores the lock in `responseIdLocks` when it took exactly one attempt; a
lock of more than one attempt is released right away; a first-attempt lock
short-circuits to `[null]`; every other path (late lock, zero-attempt
lock, rejected acquire) falls through to the second read. -/
def get {V : Type} (env : GetEnv V) (locks : LockTable) (responseId : String) :
    GetOut V :=
  match env.firstRead with
  | .error e => ⟨.error e, locks, false, false⟩
  | .ok first =>
      if !first.ok then ⟨.ok (none, none), locks, false, false⟩
      else
        match first.value with
        | some v => ⟨.ok (some v, first.ttl), locks, false, false⟩
        | none =>
            if !env.hasRedLock then ⟨.ok (none, none), locks, false, false⟩
            else
              let locks1 :=
                match env.lockOutcome with
                | some 1 => locks.assign responseId true
                | _ => locks
              match env.lockOutcome with
              | some n =>
                  if 1 < n then ⟨getAfterLock env, locks1, true, true⟩
                  else if n == 1 then ⟨.ok (none, none), locks1, false, false⟩
                  else ⟨getAfterLock env, locks1, false, true⟩
              | none => ⟨getAfterLock env, locks1, false, true⟩

/-- Observable outcome of `set`. -/
structure SetOut where
  store : Store
  locks : LockTable
  releaseAttempted : Bool

/-- `set(responseId, result, collectedEntities, ttl)` (src/redis.ts lines
361-424).  The `try` block serialises the result and submits the pipelined
writes; a serialisation throw is caught by the surrounding `catch` and a
pipeline failure by `.catch(gracefullyFail)`, both merely reported.  After
the `try`/`catch`, a locally-held lease for the key is released — the
release promise's failures are swallowed by `.catch(() => null)`, so
`releaseOk` has no effect — and the table slot is nulled.  `set` itself
never throws. -/
def set (st : Store) (locks : LockTable) (responseId serialized : String)
    (collectedEntities : List EntityRef)
    (stringifyOk execOk releaseOk : Bool) : SetOut :=
  let st1 :=
    if stringifyOk && execOk then
      setStoreWrites st responseId serialized collectedEntities
    else st
  if locks.holds responseId then
    ⟨st1, locks.assign responseId false, true⟩
  else
    ⟨st1, locks, false⟩

/-! Concrete scenarios used by the claims. -/

/-- Store after `set("r1", v1, [{typename:"User", id:1}])` and
`set("r2", v2, [{typename:"User", id:2}])` on an empty store. -/
def c1Store : Store :=
  setStoreWrites
    (setStoreWrites Store.empty "r1" "v1" [⟨"User", some (.num 1)⟩])
    "r2" "v2" [⟨"User", some (.num 2)⟩]

/-- Store after caching `p1` for the entity `{typename:"User", id:0}` and
`p2` for `{typename:"Post", id:""}` — both ids falsy but non-null. -/
def c9Store : Store :=
  setStoreWrites
    (setStoreWrites Store.empty "p1" "w1" [⟨"User", some (.num 0)⟩])
    "p2" "w2" [⟨"Post", some (.str "")⟩]

/-- Store after a single `set("r1", v1, [{typename:"User", id:1}])`,
leaving `r1` reachable both from the type tag `User` and from the
instance tag `User:1`. -/
def c6Store : Store :=
  setStoreWrites Store.empty "r1" "v1" [⟨"User", some (.num 1)⟩]

/-! Lemmas about `chunk`. -/

theorem chunkGoFuel_nil {α : Type} (size fuel : Nat) :
    chunkGoFuel size fuel ([] : List α) = [] := by
  cases fuel <;> rfl

theorem chunkGoFuel_join {α : Type} (size : Nat) (h : 1 ≤ size) :
    ∀ (fuel : Nat) (l : List α), l.length ≤ fuel →
      (chunkGoFuel size fuel l).flatten = l := by
  intro fuel
  induction fuel with
  | zero =>
      intro l hl
      have : l = [] := List.eq_nil_of_length_eq_zero (by omega)
      subst this
      rfl
  | succ n ih =>
      intro l hl
      cases l with
      | nil => rfl
      | cons x xs =>
          rw [chunkGoFuel, List.flatten_cons,
            ih (xs.drop (size - 1)) (by simp only [List.length_drop]; simp only [List.length_cons] at hl; omega)]
          have hdrop : xs.drop (size - 1) = (x :: xs).drop size := by
            cases size with
            | zero => omega
            | succ m => simp
          rw [hdrop, List.take_append_drop]

theorem chunkGoFuel_length_le {α : Type} (size : Nat) :
    ∀ (fuel : Nat) (l : List α), ∀ c ∈ chunkGoFuel size fuel l,
      c.length ≤ size := by
  intro fuel
  induction fuel with
  | zero =>
      intro l c hc
      cases l <;> simp [chunkGoFuel] at hc
  | succ n ih =>
      intro l c hc
      cases l with
      | nil => simp [chunkGoFuel] at hc
      | cons x xs =>
          rw [chunkGoFuel] at hc
          rcases List.mem_cons.mp hc with rfl | hc
          · simp only [List.length_take]
            omega
          · exact ih (xs.drop (size - 1)) c hc

theorem chunkGoFuel_dropLast {α : Type} (size : Nat) (h : 1 ≤ size) :
    ∀ (fuel : Nat) (l : List α), l.length ≤ fuel →
      ∀ c ∈ (chunkGoFuel size fuel l).dropLast, c.length = size := by
  intro fuel
  induction fuel with
  | zero =>
      intro l hl c hc
      have : l = [] := List.eq_nil_of_length_eq_zero (by omega)
      subst this
      simp [chunkGoFuel] at hc
  | succ n ih =>
      intro l hl c hc
      cases l with
      | nil => simp [chunkGoFuel] at hc
      | cons x xs =>
          rw [chunkGoFuel] at hc
          cases hrec : chunkGoFuel size n (xs.drop (size - 1)) with
          | nil =>
              rw [hrec] at hc
              simp at hc
          | cons c0 cs =>
              have hne : xs.drop (size - 1) ≠ [] := by
                intro hnil
                rw [hnil, chunkGoFuel_nil] at hrec
                exact List.noConfusion hrec
              have hlen : size - 1 < xs.length := by
                by_contra hle
                exact hne (List.drop_eq_nil_of_le (by omega))
              rw [hrec, List.dropLast_cons₂] at hc
              rcases List.mem_cons.mp hc with rfl | hc
              · simp only [List.length_take, List.length_cons]
                omega
              · exact ih (xs.drop (size - 1)) (by simp only [List.length_drop]; simp only [List.length_cons] at hl; omega) c (hrec ▸ hc)

theorem chunkGo_join {α : Type} (size : Nat) (h : 1 ≤ size) (l : List α) :
    (chunkGo size l).flatten = l :=
  chunkGoFuel_join size h l.length l (Nat.le_refl _)

theorem chunkGo_length_le {α : Type} (size : Nat) (l : List α) :
    ∀ c ∈ chunkGo size l, c.length ≤ size :=
  chunkGoFuel_length_le size l.length l

theorem chunkGo_dropLast {α : Type} (size : Nat) (h : 1 ≤ size) (l : List α) :
    ∀ c ∈ (chunkGo size l).dropLast, c.length = size :=
  chunkGoFuel_dropLast size h l.length l (Nat.le_refl _)

end ResponseCache

open ResponseCache

/-- C10: for every array and every integer size ≥ 1, the chunks of
`chunk array size` concatenate back to the array, each chunk has at most
`size` elements, every chunk except possibly the last has exactly `size`
elements, and the empty array yields no chunks; for every size < 1 the
whole array comes back as a single chunk, so a non-positive
`concurrencyLimit` removes the bound instead of failing. -/
theorem c10_chunk_spec {α : Type} (array : List α) (size : Int) :
    (1 ≤ size →
      (chunk array size).flatten = array ∧
      (∀ c ∈ chunk array size, c.length ≤ size.toNat) ∧
      (∀ c ∈ (chunk array size).dropLast, c.length = size.toNat) ∧
      (array = [] → chunk array size = [])) ∧
    (size < 1 → chunk array size = [array]) := by
  constructor
  · intro h1
    have hs : ¬ size < 1 := by omega
    have hsize : 1 ≤ size.toNat := by omega
    simp only [chunk, if_neg hs]
    refine ⟨chunkGo_join size.toNat hsize array,
      chunkGo_length_le size.toNat array,
      chunkGo_dropLast size.toNat hsize array, ?_⟩
    intro h
    rw [h]
    rfl
  · intro h
    simp [chunk, h]

/-- Witness for C10 at concrete inputs. -/
theorem c10_chunk_spec_witness :
    (chunk [1, 2, 3, 4, 5] 2).flatten = [1, 2, 3, 4, 5] ∧
    chunk [1, 2, 3, 4, 5] (-1) = [[1, 2, 3, 4, 5]] :=
  ⟨((c10_chunk_spec [1, 2, 3, 4, 5] 2).1 (by decide)).1,
   (c10_chunk_spec [1, 2, 3, 4, 5] (-1)).2 (by decide)⟩

/-- C1: with the default tag builders, after caching `r1` for `User:1` and
`r2` for `User:2`, invalidating `{typename:"User", id:1}` deletes `r1` and
its operations key but leaves `r2`'s entry, while the type-level
invalidation of `{typename:"User"}` deletes both; the instance tag
contains the `:` separator so its traversal is exactly the tag plus its
own dependents, and the type tag (no `:`) performs the `User:*` scan,
which discovers both instance tags and folds their dependents in. -/
theorem c1_instance_isolation_type_fanout :
    ((invalidateRun c1Store [⟨"User", some (.num 1)⟩] 20).1.getString "r1"
        = none ∧
      (invalidateRun c1Store [⟨"User", some (.num 1)⟩] 20).1.sets.lookup
        "operations:r1" = none ∧
      (invalidateRun c1Store [⟨"User", some (.num 1)⟩] 20).1.getString "r2"
        = some "v2") ∧
    ((invalidateRun c1Store [⟨"User", none⟩] 20).1.getString "r1" = none ∧
      (invalidateRun c1Store [⟨"User", none⟩] 20).1.getString "r2" = none) ∧
    (String.data "User:1").contains ':' = true ∧
    buildEntityInvalidationsKeys c1Store "User:1"
      = ["User:1", "r1", "operations:r1"] ∧
    (String.data "User").contains ':' = false ∧
    (c1Store.scanKeys "User:").length = 2 ∧
    "User:1" ∈ c1Store.scanKeys "User:" ∧
    "User:2" ∈ c1Store.scanKeys "User:" ∧
    "r1" ∈ buildEntityInvalidationsKeys c1Store "User" ∧
    "r2" ∈ buildEntityInvalidationsKeys c1Store "User" := by
  decide

/-- C9: for a falsy non-null id (`0` or `""`), `set` indexes the response
only under the type-level tag (no instance tag is created), while
`invalidate` maps the same EntityRef to the instance-level tag; so
invalidating exactly that EntityRef deletes only the literal tag key and
leaves the cached response, and only the type-level invalidation removes
it. -/
theorem c9_falsy_id_disagreement :
    (c9Store.smembers "User" = ["p1"] ∧
      c9Store.sets.lookup "User:0" = none ∧
      c9Store.smembers "operations:p1" = ["User"] ∧
      c9Store.smembers "Post" = ["p2"] ∧
      c9Store.sets.lookup "Post:" = none ∧
      c9Store.smembers "operations:p2" = ["Post"]) ∧
    (invalidationEntityKey ⟨"User", some (.num 0)⟩ = "User:0" ∧
      invalidationEntityKey ⟨"Post", some (.str "")⟩ = "Post:") ∧
    ((invalidateRun c9Store [⟨"User", some (.num 0)⟩] 20).2 = [["User:0"]] ∧
      (invalidateRun c9Store [⟨"User", some (.num 0)⟩] 20).1.getString "p1"
        = some "w1") ∧
    ((invalidateRun c9Store [⟨"Post", some (.str "")⟩] 20).2 = [["Post:"]] ∧
      (invalidateRun c9Store [⟨"Post", some (.str "")⟩] 20).1.getString "p2"
        = some "w2") ∧
    (invalidateRun c9Store [⟨"User", none⟩] 20).1.getString "p1" = none ∧
    (invalidateRun c9Store [⟨"Post", none⟩] 20).1.getString "p2" = none := by
  decide

/-- C6 counterexample: invalidating the type tag `User` after caching `r1`
for `{typename:"User", id:1}` issues delete arguments in which the cache
key `r1` (and its operations key) appears twice — once from the type tag's
dependents and once from the scanned instance tag's dependents — so the
key set is not deduplicated before the deletes. -/
theorem c6_counterexample :
    (invalidateRun c6Store [⟨"User", none⟩] 20).2.flatten
      = ["User", "r1", "operations:r1", "r1", "operations:r1", "User:1"] ∧
    ¬ ((invalidateRun c6Store [⟨"User", none⟩] 20).2.flatten.count "r1" ≤ 1) := by
  decide

/-- C6 amended: `invalidate` does not deduplicate — the delete calls of one
`invalidate` spell out, in order and with multiplicity, exactly the key
lists gathered by the traversal, cut into chunks of at most
`concurrencyLimit` keys each. -/
theorem c6_chunked_deletes_without_dedup (st : Store) (es : List EntityRef)
    (limit : Int) (h : 1 ≤ limit) :
    (invalidateRun st es limit).2.flatten = invalidationTraversalKeys st es ∧
    ∀ c ∈ (invalidateRun st es limit).2, c.length ≤ limit.toNat := by
  induction es generalizing st with
  | nil =>
      refine ⟨rfl, ?_⟩
      intro c hc
      simp [invalidateRun] at hc
  | cons e es ih =>
      have hs : ¬ limit < 1 := by omega
      have h1 : 1 ≤ limit.toNat := by omega
      refine ⟨?_, ?_⟩
      · simp only [invalidateRun, invalidationTraversalKeys, List.flatten_append]
        rw [(ih (Store.del st
          (buildEntityInvalidationsKeys st (invalidationEntityKey e)))).1]
        congr 1
        simp only [chunk, if_neg hs]
        exact chunkGo_join _ h1 _
      · intro c hc
        simp only [invalidateRun, List.mem_append] at hc
        rcases hc with hc | hc
        · simp only [chunk, if_neg hs] at hc
          exact chunkGo_length_le _ _ c hc
        · exact (ih (Store.del st
            (buildEntityInvalidationsKeys st (invalidationEntityKey e)))).2 c hc

/-- Witness for the amended C6 at the concrete single-entity scenario. -/
theorem c6_chunked_deletes_without_dedup_witness :
    (invalidateRun c6Store [⟨"User", none⟩] 20).2.flatten
      = invalidationTraversalKeys c6Store [⟨"User", none⟩] :=
  (c6_chunked_deletes_without_dedup c6Store [⟨"User", none⟩] 20 (by decide)).1

/-! Lemmas about association lists and the request coalescer. -/

theorem lookup_filter_out {β : Type} (l : List (String × β)) (k : String) :
    (l.filter (fun p => p.1 != k)).lookup k = none := by
  induction l with
  | nil => rfl
  | cons p l ih =>
      by_cases hp : p.1 = k
      · simpa [List.filter_cons, hp] using ih
      · have hk : (k == p.1) = false := beq_eq_false_iff_ne.mpr (Ne.symm hp)
        have hk2 : (p.1 == k) = false := beq_eq_false_iff_ne.mpr hp
        have hne : (p.1 != k) = true := by simp [bne, hk2]
        rw [List.filter_cons, if_pos hne]
        simp only [List.lookup, hk, cond_false]
        exact ih

theorem ConcurrentCachedCall_registered (s : CoalesceState) (key : String)
    (p : Nat) (h : s.ConcurrentLoadingCache.lookup key = some p) :
    ConcurrentCachedCall s key = (p, s) := by
  unfold ConcurrentCachedCall
  rw [h]

theorem callN_registered (s : CoalesceState) (key : String) (p : Nat)
    (h : s.ConcurrentLoadingCache.lookup key = some p) (n : Nat) :
    callN s key n = (List.replicate n p, s) := by
  induction n with
  | zero => rfl
  | succ m ih =>
      show ((ConcurrentCachedCall s key).1 ::
          (callN (ConcurrentCachedCall s key).2 key m).1,
          (callN (ConcurrentCachedCall s key).2 key m).2)
        = (List.replicate (m + 1) p, s)
      rw [ConcurrentCachedCall_registered s key p h]
      simp only [ih, List.replicate_succ]

/-- C2: with no call in flight for the key, `n + 1` successive calls all
receive the one promise allocated by the first call, the producer runs
exactly once; for any settlement assignment — a rejection included — every
one of those callers awaits the same settled outcome; the `.finally`
handler clears the registration whatever the outcome was, and the next
call after settlement runs the producer afresh on a new promise. -/
theorem c2_request_coalescing (s : CoalesceState) (key : String) (n : Nat)
    (h : s.ConcurrentLoadingCache.lookup key = none) :
    (callN s key (n + 1)).1 = List.replicate (n + 1) s.nextPromiseId ∧
    (callN s key (n + 1)).2.producerRuns
      = s.producerRuns ++ [(key, s.nextPromiseId)] ∧
    (settleCall (callN s key (n + 1)).2 key).ConcurrentLoadingCache.lookup key
      = none ∧
    (ConcurrentCachedCall (settleCall (callN s key (n + 1)).2 key) key).2.producerRuns
      = s.producerRuns ++ [(key, s.nextPromiseId)]
          ++ [(key, s.nextPromiseId + 1)] ∧
    ∀ (V : Type) (outcome : Nat → Except String V),
      (callN s key (n + 1)).1.map outcome
        = List.replicate (n + 1) (outcome s.nextPromiseId) := by
  have hfirst : ConcurrentCachedCall s key =
      (s.nextPromiseId,
        { ConcurrentLoadingCache :=
            (key, s.nextPromiseId) :: s.ConcurrentLoadingCache,
          nextPromiseId := s.nextPromiseId + 1,
          producerRuns := s.producerRuns ++ [(key, s.nextPromiseId)] }) := by
    unfold ConcurrentCachedCall
    rw [h]
  have hreg : ((key, s.nextPromiseId) :: s.ConcurrentLoadingCache).lookup key
      = some s.nextPromiseId := by
    simp [List.lookup]
  have hrun : callN s key (n + 1) =
      (List.replicate (n + 1) s.nextPromiseId,
        { ConcurrentLoadingCache :=
            (key, s.nextPromiseId) :: s.ConcurrentLoadingCache,
          nextPromiseId := s.nextPromiseId + 1,
          producerRuns := s.producerRuns ++ [(key, s.nextPromiseId)] }) := by
    show ((ConcurrentCachedCall s key).1 ::
        (callN (ConcurrentCachedCall s key).2 key n).1,
        (callN (ConcurrentCachedCall s key).2 key n).2) = _
    rw [hfirst]
    rw [callN_registered
      { ConcurrentLoadingCache :=
          (key, s.nextPromiseId) :: s.ConcurrentLoadingCache,
        nextPromiseId := s.nextPromiseId + 1,
        producerRuns := s.producerRuns ++ [(key, s.nextPromiseId)] }
      key s.nextPromiseId hreg n]
    rfl
  refine ⟨by rw [hrun], by rw [hrun], lookup_filter_out _ key, ?_, ?_⟩
  · rw [hrun]
    unfold ConcurrentCachedCall
    rw [show (settleCall
        { ConcurrentLoadingCache :=
            (key, s.nextPromiseId) :: s.ConcurrentLoadingCache,
          nextPromiseId := s.nextPromiseId + 1,
          producerRuns := s.producerRuns ++ [(key, s.nextPromiseId)] }
        key).ConcurrentLoadingCache.lookup key = none
      from lookup_filter_out _ key]
    simp [settleCall]
  · intro V outcome
    rw [hrun]
    simp

/-- Witness for C2 at a concrete state: three concurrent calls, one
producer run, shared rejection, cleared registration, fresh rerun. -/
theorem c2_request_coalescing_witness :
    (callN ⟨[], 0, []⟩ "k" 3).1 = [0, 0, 0] ∧
    (callN ⟨[], 0, []⟩ "k" 3).2.producerRuns = [("k", 0)] ∧
    (settleCall (callN ⟨[], 0, []⟩ "k" 3).2 "k").ConcurrentLoadingCache.lookup "k"
      = none ∧
    (ConcurrentCachedCall (settleCall (callN ⟨[], 0, []⟩ "k" 3).2 "k") "k").2.producerRuns
      = [("k", 0), ("k", 1)] ∧
    (callN ⟨[], 0, []⟩ "k" 3).1.map (fun _ => (Except.error "boom" : Except String Nat))
      = [.error "boom", .error "boom", .error "boom"] := by
  have h := c2_request_coalescing ⟨[], 0, []⟩ "k" 2 (by decide)
  refine ⟨h.1, h.2.1, h.2.2.1, h.2.2.2.1, ?_⟩
  exact h.2.2.2.2 Nat (fun _ => (Except.error "boom" : Except String Nat))

/-! The fill-lock claims. -/

/-- C3: on a genuine first-read miss with `ok = true` and a configured
lock client, a lease acquired in exactly one attempt is recorded in the
process-local lease table under the key, and `get` returns a miss
(`[null]`) at once, with no second store read. -/
theorem c3_first_responder {V : Type} (env : GetEnv V) (locks : LockTable)
    (key : String) (ttl : Option Nat)
    (h1 : env.firstRead = .ok ⟨none, true, ttl⟩)
    (h2 : env.hasRedLock = true)
    (h3 : env.lockOutcome = some 1) :
    (get env locks key).result = .ok (none, none) ∧
    (get env locks key).locks.holds key = true ∧
    (get env locks key).secondReadIssued = false := by
  simp [ResponseCache.get, h1, h2, h3, LockTable.holds, LockTable.assign, List.lookup]

/-- Witness for C3 at a concrete environment. -/
theorem c3_first_responder_witness :
    (get (V := Nat) ⟨.ok ⟨none, true, some 7⟩, true, some 1,
        .ok ⟨none, true, none⟩⟩ [] "k").result = .ok (none, none) ∧
    (get (V := Nat) ⟨.ok ⟨none, true, some 7⟩, true, some 1,
        .ok ⟨none, true, none⟩⟩ [] "k").locks.holds "k" = true ∧
    (get (V := Nat) ⟨.ok ⟨none, true, some 7⟩, true, some 1,
        .ok ⟨none, true, none⟩⟩ [] "k").secondReadIssued = false :=
  c3_first_responder ⟨.ok ⟨none, true, some 7⟩, true, some 1,
    .ok ⟨none, true, none⟩⟩ [] "k" (some 7) rfl rfl rfl

/-- C4: a lease acquired in more than one attempt is released right away,
never recorded in the lease table, and `get` re-issues the store read and
returns that second read's value and ttl. -/
theorem c4_late_joiner {V : Type} (env : GetEnv V) (locks : LockTable)
    (key : String) (ttl : Option Nat) (n : Nat)
    (h1 : env.firstRead = .ok ⟨none, true, ttl⟩)
    (h2 : env.hasRedLock = true)
    (h3 : env.lockOutcome = some n)
    (h4 : 1 < n) :
    (get env locks key).releasedLease = true ∧
    (get env locks key).locks = locks ∧
    (get env locks key).secondReadIssued = true ∧
    (get env locks key).result
      = env.secondRead.map (fun o => (o.value, o.ttl)) := by
  obtain ⟨m, rfl⟩ : ∃ m, n = m + 2 := ⟨n - 2, by omega⟩
  simp [ResponseCache.get, h1, h2, h3, getAfterLock]

/-- Witness for C4 at a concrete environment (two attempts, filled store). -/
theorem c4_late_joiner_witness :
    (get (V := Nat) ⟨.ok ⟨none, true, none⟩, true, some 2,
        .ok ⟨some 5, true, some 9⟩⟩ [] "k").releasedLease = true ∧
    (get (V := Nat) ⟨.ok ⟨none, true, none⟩, true, some 2,
        .ok ⟨some 5, true, some 9⟩⟩ [] "k").locks = [] ∧
    (get (V := Nat) ⟨.ok ⟨none, true, none⟩, true, some 2,
        .ok ⟨some 5, true, some 9⟩⟩ [] "k").secondReadIssued = true ∧
    (get (V := Nat) ⟨.ok ⟨none, true, none⟩, true, some 2,
        .ok ⟨some 5, true, some 9⟩⟩ [] "k").result
      = (Except.ok ⟨some 5, true, some 9⟩ : Except String (ReadOut Nat)).map
          (fun o => (o.value, o.ttl)) :=
  c4_late_joiner ⟨.ok ⟨none, true, none⟩, true, some 2,
    .ok ⟨some 5, true, some 9⟩⟩ [] "k" none 2 rfl rfl rfl (by decide)

/-- C5 counterexample: first read is a genuine `ok` miss, a lock client is
configured, acquisition fails (`acquire` rejects), and the store got
filled in the meantime — `get` then returns the filled value `42`, not a
miss, because the code falls through to the second store read instead of
returning `[null]`. -/
theorem c5_counterexample :
    (⟨.ok ⟨none, true, none⟩, true, none,
        .ok ⟨some 42, true, some 100⟩⟩ : GetEnv Nat).firstRead
      = .ok ⟨none, true, none⟩ ∧
    (⟨.ok ⟨none, true, none⟩, true, none,
        .ok ⟨some 42, true, some 100⟩⟩ : GetEnv Nat).hasRedLock = true ∧
    (⟨.ok ⟨none, true, none⟩, true, none,
        .ok ⟨some 42, true, some 100⟩⟩ : GetEnv Nat).lockOutcome = none ∧
    (get (V := Nat) ⟨.ok ⟨none, true, none⟩, true, none,
        .ok ⟨some 42, true, some 100⟩⟩ [] "k").result
      = .ok (some 42, some 100) := by
  refine ⟨rfl, rfl, rfl, rfl⟩

/-- C5 amended: when lease acquisition fails entirely, `get` records no
lease and falls through to re-issue the store read, returning that second
read's value and ttl — which is a miss exactly when the re-read still
finds nothing. -/
theorem c5_lock_failure_fallback {V : Type} (env : GetEnv V)
    (locks : LockTable) (key : String) (ttl : Option Nat)
    (h1 : env.firstRead = .ok ⟨none, true, ttl⟩)
    (h2 : env.hasRedLock = true)
    (h3 : env.lockOutcome = none) :
    (get env locks key).locks = locks ∧
    (get env locks key).releasedLease = false ∧
    (get env locks key).secondReadIssued = true ∧
    (get env locks key).result
      = env.secondRead.map (fun o => (o.value, o.ttl)) := by
  simp [ResponseCache.get, h1, h2, h3, getAfterLock]

/-- Witness for the amended C5 at a concrete environment whose re-read
still misses. -/
theorem c5_lock_failure_fallback_witness :
    (get (V := Nat) ⟨.ok ⟨none, true, none⟩, true, none,
        .ok ⟨none, true, none⟩⟩ [] "k").locks = [] ∧
    (get (V := Nat) ⟨.ok ⟨none, true, none⟩, true, none,
        .ok ⟨none, true, none⟩⟩ [] "k").releasedLease = false ∧
    (get (V := Nat) ⟨.ok ⟨none, true, none⟩, true, none,
        .ok ⟨none, true, none⟩⟩ [] "k").secondReadIssued = true ∧
    (get (V := Nat) ⟨.ok ⟨none, true, none⟩, true, none,
        .ok ⟨none, true, none⟩⟩ [] "k").result
      = (Except.ok ⟨none, true, none⟩ : Except String (ReadOut Nat)).map
          (fun o => (o.value, o.ttl)) :=
  c5_lock_failure_fallback ⟨.ok ⟨none, true, none⟩, true, none,
    .ok ⟨none, true, none⟩⟩ [] "k" none rfl rfl rfl

/-- C8: `set` always leaves the process-local lease table without a lease
for the key — whatever the serialisation, pipeline and release outcomes —
and it attempts the release exactly when a lease was locally held. -/
theorem c8_set_clears_lease (st : Store) (locks : LockTable)
    (responseId serialized : String) (es : List EntityRef)
    (stringifyOk execOk releaseOk : Bool) :
    (ResponseCache.set st locks responseId serialized es
        stringifyOk execOk releaseOk).locks.holds responseId = false ∧
    (ResponseCache.set st locks responseId serialized es
        stringifyOk execOk releaseOk).releaseAttempted
      = locks.holds responseId := by
  unfold ResponseCache.set
  by_cases h : locks.holds responseId = true
  · rw [if_pos h]
    constructor
    · simp [LockTable.assign, LockTable.holds, List.lookup]
    · exact h.symm
  · rw [if_neg h]
    exact ⟨Bool.eq_false_iff.mpr h, (Bool.eq_false_iff.mpr h).symm⟩

/-! The error-propagation claim. -/

theorem isThrown_map {V W : Type} (f : V → W) (r : Except String V) :
    isThrown (r.map f) = isThrown r := by
  cases r <;> rfl

theorem isThrown_ok {V : Type} (a : V) :
    isThrown (Except.ok a : Except String V) = false := rfl

theorem isThrown_error {V : Type} (e : String) :
    isThrown (Except.error e : Except String V) = true := rfl

theorem getFromRedis_thrown_iff {V : Type} (parse : String → Except String V)
    (o : StoreGetOutcome) :
    isThrown (getFromRedis parse o) = true ↔
      ∃ s, o = .value (some s) ∧ isThrown (parse s) = true := by
  cases o with
  | timedOut => simp [getFromRedis, isThrown]
  | errored => simp [getFromRedis, isThrown]
  | value v =>
      cases v with
      | none => simp [getFromRedis, isThrown]
      | some s =>
          cases hp : parse s <;>
            simp [getFromRedis, isThrown, hp, Except.map]

theorem getAfterLock_thrown_iff {V : Type}
    (parse : String → Except String V) (fr : Except String (ReadOut V))
    (hl : Bool) (lo : Option Nat) (o2 : StoreGetOutcome) :
    isThrown (getAfterLock (⟨fr, hl, lo, getFromRedis parse o2⟩ : GetEnv V))
        = true ↔
      ∃ s, o2 = .value (some s) ∧ isThrown (parse s) = true := by
  rw [getAfterLock, isThrown_map]
  exact getFromRedis_thrown_iff parse o2

/-- C7: with both store round trips of `get` produced by `getFromRedis`,
the call rejects exactly when the deserialisation of a non-null stored
value failed on a read it actually performed; a timed-out or erroring
first round trip instead surfaces as `ok = false` and `get` returns
`[null]` without throwing. -/
theorem c7_throws_iff_parse_failure {V : Type}
    (parse : String → Except String V) (o1 o2 : StoreGetOutcome)
    (hasLock : Bool) (lockOut : Option Nat) (locks : LockTable)
    (key : String) :
    (isThrown (ResponseCache.get
        (⟨getFromRedis parse o1, hasLock, lockOut, getFromRedis parse o2⟩ :
          GetEnv V) locks key).result = true ↔
      ((∃ s, o1 = .value (some s) ∧ isThrown (parse s) = true) ∨
        ((ResponseCache.get
            (⟨getFromRedis parse o1, hasLock, lockOut, getFromRedis parse o2⟩ :
              GetEnv V) locks key).secondReadIssued = true ∧
          ∃ s, o2 = .value (some s) ∧ isThrown (parse s) = true))) ∧
    ((o1 = .timedOut ∨ o1 = .errored) →
      (ResponseCache.get
          (⟨getFromRedis parse o1, hasLock, lockOut, getFromRedis parse o2⟩ :
            GetEnv V) locks key).result = .ok (none, none)) := by
  constructor
  · cases o1 with
    | timedOut => simp [ResponseCache.get, getFromRedis, isThrown_ok]
    | errored => simp [ResponseCache.get, getFromRedis, isThrown_ok]
    | value v1 =>
        cases v1 with
        | some s1 =>
            cases hp1 : parse s1 with
            | error e =>
                have h1 : getFromRedis (V := V) parse (.value (some s1))
                    = .error e := by
                  simp [getFromRedis, hp1, Except.map]
                simp [ResponseCache.get, h1, hp1, isThrown_error]
            | ok v =>
                have h1 : getFromRedis (V := V) parse (.value (some s1))
                    = .ok ⟨some v, true, none⟩ := by
                  simp [getFromRedis, hp1, Except.map]
                simp [ResponseCache.get, h1, hp1, isThrown_ok]
        | none =>
            have h1 : getFromRedis (V := V) parse (.value none)
                = .ok ⟨none, true, none⟩ := rfl
            cases hasLock with
            | false => simp [ResponseCache.get, h1, isThrown_ok]
            | true =>
                rcases lockOut with _ | n
                · simp [ResponseCache.get, h1, isThrown_ok,
                    getAfterLock_thrown_iff]
                · rcases n with _ | _ | m
                  · simp [ResponseCache.get, h1, isThrown_ok,
                      getAfterLock_thrown_iff]
                  · simp [ResponseCache.get, h1, isThrown_ok]
                  · simp [ResponseCache.get, h1, isThrown_ok,
                      getAfterLock_thrown_iff, Nat.one_lt_succ_succ]
  · intro h
    rcases h with rfl | rfl <;>
      simp [ResponseCache.get, getFromRedis]

/-- Witness for C7 at a concrete input: a timed-out first round trip makes
`get` return `[null]` without throwing. -/
theorem c7_throws_iff_parse_failure_witness :
    (ResponseCache.get
        (⟨getFromRedis (fun _ => (Except.error "corrupt" : Except String Nat))
            .timedOut, false, none,
          getFromRedis (fun _ => (Except.error "corrupt" : Except String Nat))
            (.value none)⟩ : GetEnv Nat) [] "k").result = .ok (none, none) :=
  (c7_throws_iff_parse_failure
      (fun _ => (Except.error "corrupt" : Except String Nat))
      .timedOut (.value none) false none [] "k").2 (Or.inl rfl)
